/-
Verification of the core simulation logic of the pirate runner game
(src/components/pirate-game.tsx), as a shallow embedding in Lean 4.

Conventions of the embedding:
* JavaScript numbers are modelled by `ℚ` where the code does geometry or
  fractional arithmetic (positions, speeds, weights, lives), and by `ℕ`
  for the integer-valued counters (score, coins, banked totals, levels).
  Decimal literals of the source (0.1, 0.01, 0.3, …) become exact
  rationals.
* `Math.sin` is modelled as an uninterpreted function parameter
  `sin : ℚ → ℚ`: every property proved here holds for an arbitrary
  interpretation of it, in particular for the real sine.
* React `setState` updater chains inside one frame are modelled as
  sequential function composition on explicit state values, which is
  exactly how React applies queued functional updates.
-/
import Mathlib

namespace PirateGame

/-- Obstacle types, in the declaration order of the source union
`"crab" | "barrel" | "gap" | "parrot" | "moonwalk-crab" | "treasure-chest"`. -/
inductive ObstacleType where
  | crab
  | barrel
  | gap
  | parrot
  | moonwalkCrab
  | treasureChest
deriving DecidableEq, Repr

/-- Length of the source key string of each obstacle type
("crab".length = 4, "barrel" = 6, "gap" = 3, "parrot" = 6,
"moonwalk-crab" = 13, "treasure-chest" = 14); used by the
`key.length` term of the weight perturbation. -/
def ObstacleType.keyLength : ObstacleType → ℕ
  | .crab => 4
  | .barrel => 6
  | .gap => 3
  | .parrot => 6
  | .moonwalkCrab => 13
  | .treasureChest => 14

/-- A named weight distribution: pattern name and the association list of
weights in the enumeration order of the source object literal
(`Object.entries` iterates string keys in insertion order). -/
abbrev Pattern := String × List (ObstacleType × ℚ)

/-- The six base patterns `LEVEL_PATTERNS` of the source, weights listed in
the key order of each object literal. -/
def LEVEL_PATTERNS : List Pattern :=
  [ ("Crab Invasion",
      [(.crab, 4/10), (.moonwalkCrab, 3/10), (.barrel, 1/10), (.gap, 1/10),
       (.parrot, 5/100), (.treasureChest, 5/100)]),
    ("Parrot Paradise",
      [(.parrot, 4/10), (.barrel, 2/10), (.crab, 2/10), (.gap, 1/10),
       (.moonwalkCrab, 5/100), (.treasureChest, 5/100)]),
    ("Barrel Bonanza",
      [(.barrel, 4/10), (.gap, 3/10), (.crab, 15/100), (.parrot, 1/10),
       (.moonwalkCrab, 3/100), (.treasureChest, 2/100)]),
    ("Treasure Hunt",
      [(.treasureChest, 3/10), (.crab, 25/100), (.barrel, 2/10), (.gap, 15/100),
       (.parrot, 5/100), (.moonwalkCrab, 5/100)]),
    ("Moonwalk Madness",
      [(.moonwalkCrab, 4/10), (.crab, 2/10), (.parrot, 2/10), (.barrel, 1/10),
       (.gap, 5/100), (.treasureChest, 5/100)]),
    ("Gap Gauntlet",
      [(.gap, 4/10), (.barrel, 3/10), (.crab, 15/100), (.parrot, 1/10),
       (.moonwalkCrab, 3/100), (.treasureChest, 2/100)]) ]

/-- JavaScript `x % 1` for a non-negative operand: the fractional part. -/
def jsMod1 (q : ℚ) : ℚ := q - ⌊q⌋

/-- Embedding of `generateAILevelPattern(seed)`. The seed is a natural
number (the source always passes `levelSeed + Math.floor(score / 500)`
with `levelSeed ∈ [0, 10000)`). `sin` is the uninterpreted model of
`Math.sin`. -/
def generateAILevelPattern (sin : ℚ → ℚ) (seed : ℕ) : Pattern :=
  let patternIndex := seed % LEVEL_PATTERNS.length
  let basePattern := LEVEL_PATTERNS.getD patternIndex ("", [])
  let variation := jsMod1 ((seed : ℚ) * (1/10))
  let modifiedWeights := basePattern.2.map (fun tw =>
    let adjustment := sin ((seed : ℚ) * (1/100) + (tw.1.keyLength : ℚ)) * (1/10)
    (tw.1, max (1/100) (tw.2 + adjustment)))
  (basePattern.1 ++ " (Variant " ++ toString ⌊variation * 10⌋ ++ ")", modifiedWeights)

/-- Embedding of the cumulative-weight scan of `generateObstacle`
(lines 615–625): `cumulativeWeight` starts at 0, each entry adds its
weight, and the first entry with `rand ≤ cumulativeWeight` is selected
by `break`; if no entry fires, the initialiser `selectedType = "crab"`
is the result. -/
def selectScan (rand : ℚ) : List (ObstacleType × ℚ) → ℚ → ObstacleType
  | [], _ => .crab
  | (t, w) :: rest, cumulativeWeight =>
    let c := cumulativeWeight + w
    if rand ≤ c then t else selectScan rand rest c

/-- Embedding of the weighted obstacle-type selection of
`generateObstacle` on a weight list and a uniform draw. -/
def selectObstacleType (weights : List (ObstacleType × ℚ)) (rand : ℚ) : ObstacleType :=
  selectScan rand weights 0

/-- The cumulative scan as a partial selection: the first entry whose
cumulative weight reaches the draw, or `none` when no entry does. -/
def firstCumulativeHit (rand : ℚ) : List (ObstacleType × ℚ) → ℚ → Option ObstacleType
  | [], _ => none
  | (t, w) :: rest, c => if rand ≤ c + w then some t else firstCumulativeHit rand rest (c + w)

/-- The selection rule as the spec states it (§4.1): same cumulative scan,
but on an empty scan result the fallback is the **last** enumerated
type. Stated only to be compared with `selectObstacleType`. -/
def selectObstacleTypeSpec (weights : List (ObstacleType × ℚ)) (rand : ℚ) : ObstacleType :=
  (firstCumulativeHit rand weights 0).getD ((weights.getLast?.map Prod.fst).getD .crab)

/-- The scan never selects when the draw exceeds the running total of the
remaining non-negative weights. -/
theorem selectScan_of_total_lt (rand : ℚ) :
    ∀ (ws : List (ObstacleType × ℚ)) (c : ℚ),
      (∀ p ∈ ws, 0 ≤ p.2) → c + (ws.map Prod.snd).sum < rand →
      selectScan rand ws c = .crab := by
  intro ws
  induction ws with
  | nil => intro c _ _; rfl
  | cons hd tl ih =>
    intro c hnn hlt
    have htl : 0 ≤ (tl.map Prod.snd).sum := by
      apply List.sum_nonneg
      intro x hx
      obtain ⟨p, hp, rfl⟩ := List.mem_map.mp hx
      exact hnn p (List.mem_cons_of_mem _ hp)
    have hsum : c + hd.2 + (tl.map Prod.snd).sum < rand := by
      simpa [List.map_cons, List.sum_cons, add_assoc] using hlt
    have hc : ¬ rand ≤ c + hd.2 := by
      push_neg
      calc c + hd.2 ≤ c + hd.2 + (tl.map Prod.snd).sum := by linarith
        _ < rand := hsum
    simp only [selectScan, hc, if_false]
    exact ih (c + hd.2) (fun p hp => hnn p (List.mem_cons_of_mem _ hp)) hsum

/-- The scan of the source equals the partial scan with the default
initialiser `crab` as fallback. -/
theorem selectScan_eq_firstCumulativeHit (rand : ℚ) :
    ∀ (ws : List (ObstacleType × ℚ)) (c : ℚ),
      selectScan rand ws c = (firstCumulativeHit rand ws c).getD .crab := by
  intro ws
  induction ws with
  | nil => intro c; rfl
  | cons hd tl ih =>
    intro c
    obtain ⟨t, w⟩ := hd
    by_cases h : rand ≤ c + w
    · simp [selectScan, firstCumulativeHit, h]
    · simp only [selectScan, firstCumulativeHit, h, if_false]
      exact ih (c + w)

/-- C2 (counterexample): with weights `[(parrot, 1/10), (gap, 1/10)]` and
draw 1/2 — the draw exceeds the total 1/5 — the source selector returns
the default `crab` (the loop initialiser), not the last enumerated type
`gap` that the claim requires; `crab` is not even a key of this
distribution. -/
theorem selector_fallback_counterexample :
    selectObstacleType [(.parrot, 1/10), (.gap, 1/10)] (1/2) = .crab ∧
    selectObstacleTypeSpec [(.parrot, 1/10), (.gap, 1/10)] (1/2) = .gap ∧
    ObstacleType.crab ≠ ObstacleType.gap := by
  refine ⟨?_, ?_, by decide⟩
  · norm_num [selectObstacleType, selectScan]
  · norm_num [selectObstacleTypeSpec, firstCumulativeHit, List.getLast?]

/-- C2 (amended): for every weight list and draw, the selector performs
the cumulative scan and returns the first type whose cumulative sum
reaches the draw; when no cumulative sum reaches the draw — in
particular whenever the weights are non-negative and the draw exceeds
their total — the fallback is the fixed default type `crab` (the loop
initialiser), not the last enumerated type. -/
theorem selector_first_hit_or_crab_fallback
    (ws : List (ObstacleType × ℚ)) (rand : ℚ) :
    selectObstacleType ws rand = (firstCumulativeHit rand ws 0).getD .crab ∧
    ((∀ p ∈ ws, 0 ≤ p.2) → (ws.map Prod.snd).sum < rand →
      selectObstacleType ws rand = .crab) := by
  constructor
  · exact selectScan_eq_firstCumulativeHit rand ws 0
  · intro hnn hlt
    exact selectScan_of_total_lt rand ws 0 hnn (by simpa using hlt)

/-- C2 (witness for the amended theorem): concrete instantiation — the
draw 9/10 exceeds the total 1/5 of the non-negative weights, and the
selector returns `crab`; on a draw 3/20 inside the distribution the
selector returns the first cumulative hit `gap`. -/
theorem selector_first_hit_or_crab_fallback_witness :
    selectObstacleType [(.parrot, 1/10), (.gap, 1/10)] (9/10) = .crab ∧
    selectObstacleType [(.parrot, 1/10), (.gap, 1/10)] (3/20) =
      (firstCumulativeHit (3/20) [(.parrot, 1/10), (.gap, 1/10)] 0).getD .crab := by
  constructor
  · exact (selector_first_hit_or_crab_fallback [(.parrot, 1/10), (.gap, 1/10)] (9/10)).2
      (by norm_num) (by norm_num)
  · exact (selector_first_hit_or_crab_fallback [(.parrot, 1/10), (.gap, 1/10)] (3/20)).1

/-- Embedding of the spawner's pattern query (line 612 of the source):
`generateAILevelPattern(gameState.levelSeed + Math.floor(gameState.score / 500))`. -/
def spawnerPattern (sin : ℚ → ℚ) (levelSeed score : ℕ) : Pattern :=
  generateAILevelPattern sin (levelSeed + score / 500)

/-- Embedding of the display layer's pattern query (lines 1780 and 2115 of
the source): the HUD shows
`generateAILevelPattern(gameState.levelSeed + Math.floor(gameState.score / 500)).name`. -/
def displayPattern (sin : ℚ → ℚ) (levelSeed score : ℕ) : Pattern :=
  generateAILevelPattern sin (levelSeed + score / 500)

/-- C5: the pattern generator is pure and deterministic. Its embedding is
a function of the `Math.sin` interpretation and the seed alone — it
reads no game state and mutates nothing — so repeated calls with the
same seed return the same label and the same weight list, and the
spawner and the display layer, which both query it at
`levelSeed + ⌊score / 500⌋`, observe the identical pattern for every
`(seed, score)` pair and every interpretation of `Math.sin`. -/
theorem generateAILevelPattern_pure (sin : ℚ → ℚ) (seed : ℕ) :
    (generateAILevelPattern sin seed = generateAILevelPattern sin seed ∧
     (generateAILevelPattern sin seed).1 = (generateAILevelPattern sin seed).1 ∧
     (generateAILevelPattern sin seed).2 = (generateAILevelPattern sin seed).2) ∧
    ∀ levelSeed score : ℕ,
      spawnerPattern sin levelSeed score = displayPattern sin levelSeed score :=
  ⟨⟨rfl, rfl, rfl⟩, fun _ _ => rfl⟩

/-- Player state, as in the `Player` interface of the source. -/
structure Player where
  x : ℚ
  y : ℚ
  width : ℚ
  height : ℚ
  velocityY : ℚ
  isJumping : Bool
  isSliding : Bool
  groundY : ℚ
deriving DecidableEq, Repr

/-- Axis-aligned rectangle, the shape both arguments of `checkCollision`
are read as. -/
structure Rect where
  x : ℚ
  y : ℚ
  width : ℚ
  height : ℚ
deriving DecidableEq, Repr

/-- Bounding box of the player. -/
def Player.rect (p : Player) : Rect := ⟨p.x, p.y, p.width, p.height⟩

/-- Obstacle state; the optional behaviour record carries no data relevant
to collision resolution and is omitted here. -/
structure Obstacle where
  x : ℚ
  y : ℚ
  width : ℚ
  height : ℚ
  otype : ObstacleType
deriving DecidableEq, Repr

/-- Bounding box of an obstacle. -/
def Obstacle.rect (o : Obstacle) : Rect := ⟨o.x, o.y, o.width, o.height⟩

/-- Projectile state, as in the `Projectile` interface (the only type is
"banana"). -/
structure Projectile where
  x : ℚ
  y : ℚ
  velocityX : ℚ
  velocityY : ℚ
  width : ℚ
  height : ℚ
deriving DecidableEq, Repr

/-- Bounding box of a projectile. -/
def Projectile.rect (pr : Projectile) : Rect := ⟨pr.x, pr.y, pr.width, pr.height⟩

/-- Coin state. -/
structure Coin where
  x : ℚ
  y : ℚ
  width : ℚ
  height : ℚ
  collected : Bool
deriving DecidableEq, Repr

/-- Embedding of `checkCollision(rect1, rect2)`: strict AABB overlap on
all four half-planes. -/
def checkCollision (r1 r2 : Rect) : Bool :=
  decide (r1.x < r2.x + r2.width) && decide (r1.x + r1.width > r2.x) &&
  decide (r1.y < r2.y + r2.height) && decide (r1.y + r1.height > r2.y)

/-- Source constant `JUMP_FORCE = -15`. -/
def JUMP_FORCE : ℚ := -15

/-- Source constant `GRAVITY = 0.8`. -/
def GRAVITY : ℚ := 8/10

/-- Embedding of the `jump` callback: guarded by
`!player.isJumping && gameState.isPlaying` only; on acceptance it sets
`velocityY = JUMP_FORCE` and `isJumping = true`. -/
def jump (isPlaying : Bool) (p : Player) : Player :=
  if !p.isJumping && isPlaying then
    { p with velocityY := JUMP_FORCE, isJumping := true }
  else p

/-- Embedding of the `slide` callback's immediate state update: guarded by
`gameState.isPlaying && !player.isSliding` only; on acceptance it sets
`isSliding = true`, `height = 16` and `y = groundY + 16`. (The 500 ms
revert is a separately scheduled timer and is not part of the accepted
transition.) -/
def slide (isPlaying : Bool) (p : Player) : Player :=
  if isPlaying && !p.isSliding then
    { p with isSliding := true, height := 16, y := p.groundY + 16 }
  else p

/-- C8: the slide guard tests only `isSliding` (and `isPlaying`), and the
jump guard tests only `isJumping` (and `isPlaying`) — the guards are
independent. An accepted slide immediately puts the player at height 16
and `y = groundY + 16`, whatever its current altitude `y` and airborne
flag are, so a mid-jump slide instantly relocates the player to slide
height at ground level; `isJumping` is untouched by the slide. -/
theorem slide_accepts_airborne (p : Player) :
    (p.isSliding = false →
      slide true p =
        { p with isSliding := true, height := 16, y := p.groundY + 16 }) ∧
    (p.isSliding = true → slide true p = p) ∧
    (p.isJumping = false →
      jump true p = { p with velocityY := JUMP_FORCE, isJumping := true }) ∧
    (p.isJumping = true → jump true p = p) := by
  refine ⟨fun h => ?_, fun h => ?_, fun h => ?_, fun h => ?_⟩ <;>
    simp [slide, jump, h]

/-- C8 (witness): a player mid-jump at altitude `y = 150` (ground at 300),
not sliding — the slide is accepted and teleports it to `y = 316` with
height 16, keeping `isJumping = true`. -/
theorem slide_accepts_airborne_witness :
    slide true
      { x := 100, y := 150, width := 32, height := 32, velocityY := -5,
        isJumping := true, isSliding := false, groundY := 300 } =
      { x := 100, y := 316, width := 32, height := 16, velocityY := -5,
        isJumping := true, isSliding := true, groundY := 300 } := by
  have h := (slide_accepts_airborne
    { x := 100, y := 150, width := 32, height := 32, velocityY := -5,
      isJumping := true, isSliding := false, groundY := 300 }).1 rfl
  rw [h]
  norm_num

/-- Embedding of the per-obstacle branch of the collision pass
(lines 1526–1544): a gap deducts one life (floor 1) only when
`player.y + player.height >= obstacle.y`; a treasure chest never
deducts; every other overlapping obstacle deducts one life (floor 1).
Only the lives component is modelled here. -/
def obstacleCollisionLives (pl : Player) (lives : ℚ) (ob : Obstacle) : ℚ :=
  if checkCollision pl.rect ob.rect then
    if ob.otype = .gap ∧ ob.y ≤ pl.y + pl.height then max 1 (lives - 1)
    else if ob.otype = .treasureChest then lives
    else if ob.otype ≠ .gap then max 1 (lives - 1)
    else lives
  else lives

/-- Embedding of the projectile branch of the collision pass
(lines 1547–1553): an overlapping projectile deducts one life
(floor 1). -/
def projectileCollisionLives (pl : Player) (lives : ℚ) (pr : Projectile) : ℚ :=
  if checkCollision pl.rect pr.rect then max 1 (lives - 1) else lives

/-- Lives after one frame's collision-resolution pass: the obstacle loop,
then the projectile loop, each applying its functional `setGameState`
update in order. -/
def collisionPassLives (pl : Player) (obstacles : List Obstacle)
    (projectiles : List Projectile) (lives : ℚ) : ℚ :=
  projectiles.foldl (projectileCollisionLives pl)
    (obstacles.foldl (obstacleCollisionLives pl) lives)

/-- Each obstacle step either leaves lives unchanged or applies
`max 1 (lives - 1)`. -/
theorem obstacleCollisionLives_cases (pl : Player) (lives : ℚ) (ob : Obstacle) :
    obstacleCollisionLives pl lives ob = lives ∨
    obstacleCollisionLives pl lives ob = max 1 (lives - 1) := by
  unfold obstacleCollisionLives
  split_ifs <;> simp

/-- Each projectile step either leaves lives unchanged or applies
`max 1 (lives - 1)`. -/
theorem projectileCollisionLives_cases (pl : Player) (lives : ℚ) (pr : Projectile) :
    projectileCollisionLives pl lives pr = lives ∨
    projectileCollisionLives pl lives pr = max 1 (lives - 1) := by
  unfold projectileCollisionLives
  split_ifs <;> simp

/-- One obstacle step preserves the floor. -/
theorem obstacleCollisionLives_floor (pl : Player) (lives : ℚ) (ob : Obstacle)
    (h : 1 ≤ lives) : 1 ≤ obstacleCollisionLives pl lives ob := by
  rcases obstacleCollisionLives_cases pl lives ob with hc | hc <;> rw [hc]
  · exact h
  · exact le_max_left 1 _

/-- One projectile step preserves the floor. -/
theorem projectileCollisionLives_floor (pl : Player) (lives : ℚ) (pr : Projectile)
    (h : 1 ≤ lives) : 1 ≤ projectileCollisionLives pl lives pr := by
  rcases projectileCollisionLives_cases pl lives pr with hc | hc <;> rw [hc]
  · exact h
  · exact le_max_left 1 _

/-- C3: every life-deducting collision — water gap entered mid-fall,
non-chest obstacle, or projectile hit — writes `max 1 (lives - 1)`, the
floor being applied at each point of deduction; consequently, for any
frame's collision-resolution pass starting from `lives ≥ 1`, the
resulting lives never fall below 1. -/
theorem collision_lives_floor (pl : Player) (obstacles : List Obstacle)
    (projectiles : List Projectile) (lives : ℚ) (h : 1 ≤ lives) :
    (∀ ob : Obstacle,
      obstacleCollisionLives pl lives ob = lives ∨
      obstacleCollisionLives pl lives ob = max 1 (lives - 1)) ∧
    (∀ pr : Projectile,
      projectileCollisionLives pl lives pr = lives ∨
      projectileCollisionLives pl lives pr = max 1 (lives - 1)) ∧
    1 ≤ collisionPassLives pl obstacles projectiles lives := by
  refine ⟨obstacleCollisionLives_cases pl lives,
          projectileCollisionLives_cases pl lives, ?_⟩
  unfold collisionPassLives
  have hob : ∀ (obs : List Obstacle) (l : ℚ), 1 ≤ l →
      1 ≤ obs.foldl (obstacleCollisionLives pl) l := by
    intro obs
    induction obs with
    | nil => intro l hl; exact hl
    | cons hd tl ih =>
      intro l hl
      exact ih _ (obstacleCollisionLives_floor pl l hd hl)
  have hpr : ∀ (prs : List Projectile) (l : ℚ), 1 ≤ l →
      1 ≤ prs.foldl (projectileCollisionLives pl) l := by
    intro prs
    induction prs with
    | nil => intro l hl; exact hl
    | cons hd tl ih =>
      intro l hl
      exact ih _ (projectileCollisionLives_floor pl l hd hl)
  exact hpr _ _ (hob _ _ h)

/-- C3 (witness): a grounded player overlapping a crab, a barrel and a
banana at lives 2: the pass deducts with the floor applied each time
and ends at lives 1 ≥ 1. -/
theorem collision_lives_floor_witness :
    (1 : ℚ) ≤ 2 ∧
    1 ≤ collisionPassLives
      { x := 100, y := 300, width := 32, height := 32, velocityY := 0,
        isJumping := false, isSliding := false, groundY := 300 }
      [{ x := 110, y := 300, width := 32, height := 32, otype := .crab },
       { x := 90, y := 300, width := 32, height := 32, otype := .barrel }]
      [{ x := 112, y := 310, velocityX := -3, velocityY := 0, width := 8, height := 4 }]
      2 := by
  constructor
  · norm_num
  · exact (collision_lives_floor _ _ _ 2 (by norm_num)).2.2

/-- Horizontal center-to-center difference `dx` of `checkCoinMagnet`:
`player.x + player.width / 2 - (coin.x + coin.width / 2)`. -/
def magnetDx (pl : Player) (c : Coin) : ℚ :=
  pl.x + pl.width / 2 - (c.x + c.width / 2)

/-- Vertical center-to-center difference `dy` of `checkCoinMagnet`. -/
def magnetDy (pl : Player) (c : Coin) : ℚ :=
  pl.y + pl.height / 2 - (c.y + c.height / 2)

/-- Squared center-to-center distance of `checkCoinMagnet`. -/
def magnetDistSq (pl : Player) (c : Coin) : ℚ :=
  magnetDx pl c ^ 2 + magnetDy pl c ^ 2

/-- Embedding of `checkCoinMagnet(coin)`: with
`magnetRange = 50 + shipBoosts.coinMagnetRange`, a coin whose center
distance to the player's center is strictly between 20 and
`magnetRange` is pulled toward the player by
`pullStrength 0.3 × 0.1 = 3 %` of the distance vector; any other coin
keeps its position. The source compares
`Math.sqrt(distSq) < magnetRange` and `Math.sqrt(distSq) > 20`; both
sides are non-negative (`magnetRange = 50 + 20·level ≥ 50`), so the
comparisons are embedded on the squares. -/
def checkCoinMagnet (coinMagnetRange : ℚ) (pl : Player) (c : Coin) : ℚ × ℚ :=
  let magnetRange := 50 + coinMagnetRange
  if magnetDistSq pl c < magnetRange ^ 2 ∧ 20 ^ 2 < magnetDistSq pl c then
    (c.x + magnetDx pl c * (3/10) * (1/10), c.y + magnetDy pl c * (3/10) * (1/10))
  else (c.x, c.y)

/-- The per-frame coin displacement of the game loop (lines 1476–1485):
the magnet result, then the horizontal scroll by `gameSpeed`. -/
def coinFrameStep (coinMagnetRange gameSpeed : ℚ) (pl : Player) (c : Coin) : Coin :=
  let magnetPos := checkCoinMagnet coinMagnetRange pl c
  { c with x := magnetPos.1 - gameSpeed, y := magnetPos.2 }

/-- C6: the magnet step displaces a coin by exactly 3 % of the
center-to-center distance vector if and only if the squared center
distance lies strictly between `20²` and
`(50 + coin-magnet boost)²` — that is, the distance is strictly
between 20 and the magnet range; a coin outside that band is left
unmoved by the magnet and its frame displacement is exactly the
horizontal scroll by `gameSpeed`. -/
theorem coin_magnet_band (coinMagnetRange gameSpeed : ℚ) (pl : Player) (c : Coin) :
    ((magnetDistSq pl c < (50 + coinMagnetRange) ^ 2 ∧ 20 ^ 2 < magnetDistSq pl c) →
      checkCoinMagnet coinMagnetRange pl c =
        (c.x + (3/100) * magnetDx pl c, c.y + (3/100) * magnetDy pl c) ∧
      coinFrameStep coinMagnetRange gameSpeed pl c =
        { c with x := c.x + (3/100) * magnetDx pl c - gameSpeed,
                 y := c.y + (3/100) * magnetDy pl c }) ∧
    (¬(magnetDistSq pl c < (50 + coinMagnetRange) ^ 2 ∧ 20 ^ 2 < magnetDistSq pl c) →
      checkCoinMagnet coinMagnetRange pl c = (c.x, c.y) ∧
      coinFrameStep coinMagnetRange gameSpeed pl c = { c with x := c.x - gameSpeed }) := by
  constructor
  · intro h
    have hm : checkCoinMagnet coinMagnetRange pl c =
        (c.x + (3/100) * magnetDx pl c, c.y + (3/100) * magnetDy pl c) := by
      unfold checkCoinMagnet
      rw [if_pos h]
      ring_nf
    exact ⟨hm, by simp [coinFrameStep, hm]⟩
  · intro h
    have hm : checkCoinMagnet coinMagnetRange pl c = (c.x, c.y) := by
      unfold checkCoinMagnet
      rw [if_neg h]
    exact ⟨hm, by simp [coinFrameStep, hm]⟩

/-- C6 (witness): with no upgrade boost (range 50) and a player at
(100, 300) sized 32×32 (center (116, 316)): a coin centered 30 to the
right (squared distance 900 ∈ (400, 2500)) is pulled by exactly
3 % · (−30, 0) and then scrolled, landing at x = 138 − 0.9 − 4; a coin
centered 100 to the right (squared distance 10000 ≥ 2500) is only
scrolled by the speed 4. -/
theorem coin_magnet_band_witness :
    coinFrameStep 0 4
      { x := 100, y := 300, width := 32, height := 32, velocityY := 0,
        isJumping := false, isSliding := false, groundY := 300 }
      { x := 138, y := 308, width := 16, height := 16, collected := false } =
      { x := 138 - 9/10 - 4, y := 308, width := 16, height := 16, collected := false } ∧
    coinFrameStep 0 4
      { x := 100, y := 300, width := 32, height := 32, velocityY := 0,
        isJumping := false, isSliding := false, groundY := 300 }
      { x := 208, y := 308, width := 16, height := 16, collected := false } =
      { x := 204, y := 308, width := 16, height := 16, collected := false } := by
  constructor
  · have h := (coin_magnet_band 0 4
      { x := 100, y := 300, width := 32, height := 32, velocityY := 0,
        isJumping := false, isSliding := false, groundY := 300 }
      { x := 138, y := 308, width := 16, height := 16, collected := false }).1
      (by norm_num [magnetDistSq, magnetDx, magnetDy])
    rw [h.2]
    norm_num [magnetDx, magnetDy]
  · have h := (coin_magnet_band 0 4
      { x := 100, y := 300, width := 32, height := 32, velocityY := 0,
        isJumping := false, isSliding := false, groundY := 300 }
      { x := 208, y := 308, width := 16, height := 16, collected := false }).2
      (by norm_num [magnetDistSq, magnetDx, magnetDy])
    rw [h.2]
    norm_num

/-- Daily-challenge type union `"coins" | "score" | "survival" | "enemies"`. -/
inductive ChallengeType where
  | coins
  | score
  | survival
  | enemies
deriving DecidableEq, Repr

/-- A daily-challenge record (the display-only `name`/`description`
strings are omitted). -/
structure DailyChallenge where
  id : String
  target : ℕ
  progress : ℕ
  reward : ℕ
  completed : Bool
  ctype : ChallengeType
deriving DecidableEq, Repr

/-- Ship-upgrade effect type union
`"speed" | "lives" | "coin-magnet" | "starting-lives"`. -/
inductive EffectType where
  | speed
  | lives
  | coinMagnet
  | startingLives
deriving DecidableEq, Repr

/-- A ship-upgrade record (display strings omitted). -/
structure ShipUpgrade where
  id : String
  cost : ℕ
  maxLevel : ℕ
  currentLevel : ℕ
  effectType : EffectType
  effectValue : ℚ
deriving DecidableEq, Repr

/-- A cosmetic-outfit record (display strings and part descriptors
omitted; they never affect progression state). -/
structure PirateOutfit where
  id : String
  cost : ℕ
  unlocked : Bool
deriving DecidableEq, Repr

/-- The persistent player profile, as in the `PlayerProgress` interface. -/
structure PlayerProgress where
  totalCoins : ℕ
  shipUpgrades : List ShipUpgrade
  gamesPlayed : ℕ
  bestScore : ℕ
  dailyChallenges : List DailyChallenge
  lastChallengeReset : String
  pirateOutfits : List PirateOutfit
  selectedOutfit : String
  totalEnemiesDefeated : ℕ
  totalSurvivalTime : ℕ
deriving DecidableEq, Repr

/-- The derived ship boosts accumulated by `calculateShipBoosts`. -/
structure ShipBoosts where
  speedMultiplier : ℚ
  extraLives : ℚ
  coinMagnetRange : ℚ
  startingLives : ℚ
deriving DecidableEq, Repr

/-- Embedding of `calculateShipBoosts(upgrades)`: a left fold starting
from multiplier 1 and 0 for the additive boosts, each upgrade adding
`currentLevel * effect.value` to the field selected by its effect
type. -/
def calculateShipBoosts (upgrades : List ShipUpgrade) : ShipBoosts :=
  upgrades.foldl
    (fun boosts upgrade =>
      let effectValue := (upgrade.currentLevel : ℚ) * upgrade.effectValue
      match upgrade.effectType with
      | .speed => { boosts with speedMultiplier := boosts.speedMultiplier + effectValue }
      | .lives => { boosts with extraLives := boosts.extraLives + effectValue }
      | .coinMagnet => { boosts with coinMagnetRange := boosts.coinMagnetRange + effectValue }
      | .startingLives => { boosts with startingLives := boosts.startingLives + effectValue })
    { speedMultiplier := 1, extraLives := 0, coinMagnetRange := 0, startingLives := 0 }

/-- The default ship-upgrade records of a fresh profile
(lines 407–444 of the source): hull (starting-lives +1, max 3),
sails (speed +0.2, max 3), compass (coin-magnet +20, max 3),
crew (lives +1, max 2), all at level 0. -/
def defaultShipUpgrades : List ShipUpgrade :=
  [ { id := "hull", cost := 50, maxLevel := 3, currentLevel := 0,
      effectType := .startingLives, effectValue := 1 },
    { id := "sails", cost := 75, maxLevel := 3, currentLevel := 0,
      effectType := .speed, effectValue := 2/10 },
    { id := "compass", cost := 100, maxLevel := 3, currentLevel := 0,
      effectType := .coinMagnet, effectValue := 20 },
    { id := "crew", cost := 150, maxLevel := 2, currentLevel := 0,
      effectType := .lives, effectValue := 1 } ]

/-- The default upgrades with every `currentLevel` raised to its
`maxLevel`. -/
def maxedDefaultShipUpgrades : List ShipUpgrade :=
  defaultShipUpgrades.map (fun u => { u with currentLevel := u.maxLevel })

/-- The lives a new run starts with (`startGame`, line 1668):
`Math.max(1, 3 + shipBoosts.startingLives + shipBoosts.extraLives)` —
no upper cap. -/
def startGameLives (boosts : ShipBoosts) : ℚ :=
  max 1 (3 + boosts.startingLives + boosts.extraLives)

/-- The lives after an extra-life power-up pickup (line 1588):
`Math.min(lives + 1, 5)`. -/
def extraLifePickup (lives : ℚ) : ℚ :=
  min (lives + 1) 5

/-- Embedding of `purchaseUpgrade(upgradeId)`: look up the first upgrade
with the given id; return the profile unchanged when it is missing, at
max level, or the level-scaled cost `cost * (currentLevel + 1)` exceeds
the banked coins; otherwise deduct the cost and raise `currentLevel` of
the upgrades with that id by one. -/
def purchaseUpgrade (upgradeId : String) (p : PlayerProgress) : PlayerProgress :=
  match p.shipUpgrades.find? (fun u => u.id == upgradeId) with
  | none => p
  | some upgrade =>
    if upgrade.maxLevel ≤ upgrade.currentLevel then p
    else
      let cost := upgrade.cost * (upgrade.currentLevel + 1)
      if p.totalCoins < cost then p
      else
        { p with
          totalCoins := p.totalCoins - cost,
          shipUpgrades := p.shipUpgrades.map (fun u =>
            if u.id == upgradeId then { u with currentLevel := u.currentLevel + 1 } else u) }

/-- Embedding of `updateChallengeProgress(type, amount)`: every
not-yet-completed challenge of the given type advances by `amount` and
flips `completed` when the new progress reaches its target; all other
challenges are untouched. -/
def updateChallengeProgress (t : ChallengeType) (amount : ℕ) (p : PlayerProgress) :
    PlayerProgress :=
  { p with
    dailyChallenges := p.dailyChallenges.map (fun c =>
      if c.ctype = t ∧ c.completed = false then
        let newProgress := c.progress + amount
        if c.target ≤ newProgress then
          { c with progress := newProgress, completed := true }
        else
          { c with progress := newProgress }
      else c) }

/-- The challenges `handleGameOver` pays out (lines 1709–1715): those not
completed before the run whose target is newly reached by the run's
score, coins, or approximated survival time `⌊score / 10⌋`. (The
filter has no branch for the "enemies" type.) -/
def completedChallenges (p : PlayerProgress) (score coins : ℕ) : List DailyChallenge :=
  p.dailyChallenges.filter (fun c =>
    !c.completed &&
      ((c.ctype == .score && decide (c.target ≤ score)) ||
       (c.ctype == .coins && decide (c.target ≤ coins)) ||
       (c.ctype == .survival && decide (c.target ≤ score / 10))))

/-- The summed coin rewards of the newly completed challenges. -/
def challengeRewards (p : PlayerProgress) (score coins : ℕ) : ℕ :=
  ((completedChallenges p score coins).map DailyChallenge.reward).sum

/-- Embedding of `handleGameOver()` restricted to the profile (the
catchphrase refresh and panel toggle have no profile effect): advance
the score, coins and survival challenges; then fold run coins plus the
rewards of the newly completed challenges into the banked total, add
one game played, raise the best score to the run's score if it is
larger, and add `⌊score / 10⌋` to the cumulative survival time. The
reward filter reads the profile as it was before the challenge-progress
updates, exactly as the `handleGameOver` closure does. -/
def handleGameOver (score coins : ℕ) (p : PlayerProgress) : PlayerProgress :=
  let rewards := challengeRewards p score coins
  let p1 := updateChallengeProgress .survival (score / 10)
    (updateChallengeProgress .coins coins
      (updateChallengeProgress .score score p))
  { p1 with
    totalCoins := p1.totalCoins + coins + rewards,
    gamesPlayed := p1.gamesPlayed + 1,
    bestScore := max p1.bestScore score,
    totalSurvivalTime := p1.totalSurvivalTime + score / 10 }

/-- The profile mutation of the game loop's own game-over branch
(lines 1609–1614): one game played, best score raised to
`totalCoins + coins`, and the run coins banked. -/
def gameLoopGameOverProfile (coins : ℕ) (p : PlayerProgress) : PlayerProgress :=
  { p with
    gamesPlayed := p.gamesPlayed + 1,
    bestScore := max p.bestScore (p.totalCoins + coins),
    totalCoins := p.totalCoins + coins }

/-- The session fields the game-over branch reads and writes. -/
structure GameState where
  isPlaying : Bool
  isPaused : Bool
  score : ℕ
  coins : ℕ
  lives : ℚ
  gameSpeed : ℚ
  levelSeed : ℕ
deriving DecidableEq, Repr

/-- Embedding of the game loop's game-over check (lines 1606–1615): on
any tick where the frame's `lives ≤ 1`, the loop itself sets
`isPlaying` to false and applies `gameLoopGameOverProfile` — no timer
is consulted. -/
def gameLoopGameOverCheck (gs : GameState) (p : PlayerProgress) :
    GameState × PlayerProgress :=
  if gs.lives ≤ 1 then
    ({ gs with isPlaying := false }, gameLoopGameOverProfile gs.coins p)
  else (gs, p)

/-- Embedding of `purchaseOutfit(outfitId)`: a no-op when the outfit is
missing, already unlocked, or unaffordable; otherwise deduct its cost
and unlock it. -/
def purchaseOutfit (outfitId : String) (p : PlayerProgress) : PlayerProgress :=
  match p.pirateOutfits.find? (fun o => o.id == outfitId) with
  | none => p
  | some outfit =>
    if outfit.unlocked || decide (p.totalCoins < outfit.cost) then p
    else
      { p with
        totalCoins := p.totalCoins - outfit.cost,
        pirateOutfits := p.pirateOutfits.map (fun o =>
          if o.id == outfitId then { o with unlocked := true } else o) }

/-- Embedding of `selectOutfit(outfitId)`. -/
def selectOutfit (outfitId : String) (p : PlayerProgress) : PlayerProgress :=
  { p with selectedOutfit := outfitId }

/-- C10: a new run starts with
`max(1, 3 + starting-lives boost + extra-lives boost)` lives and no
upper cap; with the hull upgrade maxed (3 × +1 starting lives) and the
crew upgrade maxed (2 × +1 extra lives) a run begins with 8 lives,
which exceeds the cap of 5 that the extra-life power-up pickup
`min(lives + 1, 5)` enforces during play — that cap never applies at
run start. -/
theorem start_lives_uncapped :
    (∀ b : ShipBoosts, startGameLives b = max 1 (3 + b.startingLives + b.extraLives)) ∧
    (calculateShipBoosts maxedDefaultShipUpgrades).startingLives = 3 ∧
    (calculateShipBoosts maxedDefaultShipUpgrades).extraLives = 2 ∧
    startGameLives (calculateShipBoosts maxedDefaultShipUpgrades) = 8 ∧
    (∀ lives : ℚ, extraLifePickup lives = min (lives + 1) 5 ∧ extraLifePickup lives ≤ 5) ∧
    ¬ ((8 : ℚ) ≤ 5) := by
  have hboosts : calculateShipBoosts maxedDefaultShipUpgrades =
      { speedMultiplier := 1 + 3 * (2/10), extraLives := 2,
        coinMagnetRange := 60, startingLives := 3 } := by
    norm_num [calculateShipBoosts, maxedDefaultShipUpgrades, defaultShipUpgrades,
      List.foldl]
  refine ⟨fun b => rfl, ?_, ?_, ?_, fun lives => ⟨rfl, min_le_right _ 5⟩, by norm_num⟩
  · rw [hboosts]
  · rw [hboosts]
  · rw [hboosts]
    norm_num [startGameLives]

/-- C1 (refutation of the grace-timer claim): on any tick where the
frame's lives are at the floor while the session is playing, the game
loop's own game-over branch — not the 2-second timer — already sets
`isPlaying` to false and mutates the persistent profile (one game
played, run coins banked, best score overwritten from
`totalCoins + coins`). The run therefore ends and the profile is
mutated before the grace timer can expire. -/
theorem gameLoop_ends_run_before_timer (gs : GameState) (p : PlayerProgress)
    (h : gs.lives ≤ 1) :
    (gameLoopGameOverCheck gs p).1.isPlaying = false ∧
    (gameLoopGameOverCheck gs p).2.gamesPlayed = p.gamesPlayed + 1 ∧
    (gameLoopGameOverCheck gs p).2.totalCoins = p.totalCoins + gs.coins ∧
    (gameLoopGameOverCheck gs p).2.bestScore =
      max p.bestScore (p.totalCoins + gs.coins) := by
  simp [gameLoopGameOverCheck, gameLoopGameOverProfile, h]

/-- A session on the tick where lives just reached the floor. -/
def sampleGameOverState : GameState :=
  { isPlaying := true, isPaused := false, score := 100, coins := 7, lives := 1,
    gameSpeed := 4, levelSeed := 1234 }

/-- A fresh profile with one incomplete challenge of each relevant type. -/
def sampleProfile : PlayerProgress :=
  { totalCoins := 0,
    shipUpgrades := defaultShipUpgrades,
    gamesPlayed := 0,
    bestScore := 0,
    dailyChallenges :=
      [ { id := "coins-50", target := 50, progress := 0, reward := 25,
          completed := false, ctype := .coins },
        { id := "score-1000", target := 1000, progress := 0, reward := 50,
          completed := false, ctype := .score },
        { id := "enemies-10", target := 10, progress := 0, reward := 30,
          completed := false, ctype := .enemies } ],
    lastChallengeReset := "Mon Jan 01 2024",
    pirateOutfits := [ { id := "default", cost := 0, unlocked := true },
                       { id := "fancy", cost := 100, unlocked := false } ],
    selectedOutfit := "default",
    totalEnemiesDefeated := 0,
    totalSurvivalTime := 0 }

/-- C1 (witness): at the concrete game-over tick (lives exactly 1,
playing), the loop sets `isPlaying := false` and the profile's games
played becomes 1 with the 7 run coins banked — no timer was involved. -/
theorem gameLoop_ends_run_before_timer_witness :
    sampleGameOverState.lives ≤ 1 ∧
    (gameLoopGameOverCheck sampleGameOverState sampleProfile).1.isPlaying = false ∧
    (gameLoopGameOverCheck sampleGameOverState sampleProfile).2.gamesPlayed = 1 ∧
    (gameLoopGameOverCheck sampleGameOverState sampleProfile).2.totalCoins = 7 := by
  have h : sampleGameOverState.lives ≤ 1 := by norm_num [sampleGameOverState]
  have hthm := gameLoop_ends_run_before_timer sampleGameOverState sampleProfile h
  refine ⟨h, hthm.1, ?_, ?_⟩
  · rw [hthm.2.1]; rfl
  · rw [hthm.2.2.1]; rfl

/-- Advancing challenge progress leaves every non-challenge profile field
unchanged. -/
@[simp] theorem updateChallengeProgress_totalCoins (t : ChallengeType) (a : ℕ)
    (p : PlayerProgress) : (updateChallengeProgress t a p).totalCoins = p.totalCoins := rfl

/-- Advancing challenge progress does not change the games-played counter. -/
@[simp] theorem updateChallengeProgress_gamesPlayed (t : ChallengeType) (a : ℕ)
    (p : PlayerProgress) : (updateChallengeProgress t a p).gamesPlayed = p.gamesPlayed := rfl

/-- Advancing challenge progress does not change the best score. -/
@[simp] theorem updateChallengeProgress_bestScore (t : ChallengeType) (a : ℕ)
    (p : PlayerProgress) : (updateChallengeProgress t a p).bestScore = p.bestScore := rfl

/-- Advancing challenge progress does not change the survival total. -/
@[simp] theorem updateChallengeProgress_totalSurvivalTime (t : ChallengeType) (a : ℕ)
    (p : PlayerProgress) :
    (updateChallengeProgress t a p).totalSurvivalTime = p.totalSurvivalTime := rfl

/-- Advancing challenge progress does not change the enemies counter. -/
@[simp] theorem updateChallengeProgress_totalEnemiesDefeated (t : ChallengeType) (a : ℕ)
    (p : PlayerProgress) :
    (updateChallengeProgress t a p).totalEnemiesDefeated = p.totalEnemiesDefeated := rfl

/-- The loop's game-over branch does not touch the challenge list. -/
@[simp] theorem gameLoopGameOverProfile_dailyChallenges (coins : ℕ) (p : PlayerProgress) :
    (gameLoopGameOverProfile coins p).dailyChallenges = p.dailyChallenges := rfl

/-- The loop's game-over branch adds one played game. -/
@[simp] theorem gameLoopGameOverProfile_gamesPlayed (coins : ℕ) (p : PlayerProgress) :
    (gameLoopGameOverProfile coins p).gamesPlayed = p.gamesPlayed + 1 := rfl

/-- The loop's game-over branch banks the run coins. -/
@[simp] theorem gameLoopGameOverProfile_totalCoins (coins : ℕ) (p : PlayerProgress) :
    (gameLoopGameOverProfile coins p).totalCoins = p.totalCoins + coins := rfl

/-- The loop's game-over branch rewrites the best score from the banked
total plus run coins. -/
@[simp] theorem gameLoopGameOverProfile_bestScore (coins : ℕ) (p : PlayerProgress) :
    (gameLoopGameOverProfile coins p).bestScore =
      max p.bestScore (p.totalCoins + coins) := rfl

/-- The loop's game-over branch does not touch the survival total. -/
@[simp] theorem gameLoopGameOverProfile_totalSurvivalTime (coins : ℕ) (p : PlayerProgress) :
    (gameLoopGameOverProfile coins p).totalSurvivalTime = p.totalSurvivalTime := rfl

/-- The loop's game-over branch does not touch the enemies counter. -/
@[simp] theorem gameLoopGameOverProfile_totalEnemiesDefeated (coins : ℕ)
    (p : PlayerProgress) :
    (gameLoopGameOverProfile coins p).totalEnemiesDefeated = p.totalEnemiesDefeated := rfl

/-- The challenge rewards paid at run end depend only on the challenge
list. -/
theorem challengeRewards_congr {p q : PlayerProgress} (score coins : ℕ)
    (h : p.dailyChallenges = q.dailyChallenges) :
    challengeRewards p score coins = challengeRewards q score coins := by
  simp [challengeRewards, completedChallenges, h]

/-- The complete run-end effect on the profile as the source executes it:
the game loop's game-over branch fires on the tick where lives are at
the floor, and the pending 2-second timer then runs `handleGameOver`
on the already-mutated profile. -/
def runEndProfile (gs : GameState) (p : PlayerProgress) : PlayerProgress :=
  handleGameOver gs.score gs.coins (gameLoopGameOverCheck gs p).2

/-- C4 (refutation of the exactly-once claim): across a run's end the
profile is mutated twice — once by the game loop's game-over branch
and once by `handleGameOver` — so games played increases by 2, the run
coins are banked twice (plus the challenge rewards once), and the best
score is first overwritten from `totalCoins + coins` before being
raised to the run score. -/
theorem run_end_mutates_profile_twice (gs : GameState) (p : PlayerProgress)
    (h : gs.lives ≤ 1) :
    (runEndProfile gs p).gamesPlayed = p.gamesPlayed + 2 ∧
    (runEndProfile gs p).totalCoins =
      p.totalCoins + gs.coins + gs.coins + challengeRewards p gs.score gs.coins ∧
    (runEndProfile gs p).totalSurvivalTime =
      p.totalSurvivalTime + gs.score / 10 ∧
    (runEndProfile gs p).bestScore =
      max (max p.bestScore (p.totalCoins + gs.coins)) gs.score := by
  have hrw : challengeRewards (gameLoopGameOverProfile gs.coins p) gs.score gs.coins =
      challengeRewards p gs.score gs.coins :=
    challengeRewards_congr gs.score gs.coins rfl
  refine ⟨?_, ?_, ?_, ?_⟩ <;>
    simp [runEndProfile, handleGameOver, gameLoopGameOverCheck, h, hrw]

/-- C4 (witness): ending the concrete run (score 100, coins 7, lives at
the floor) on the fresh profile yields games played 2 — not 1 — and a
banked total of 14, twice the run's 7 coins (no challenge crossed its
target). -/
theorem run_end_mutates_profile_twice_witness :
    sampleGameOverState.lives ≤ 1 ∧
    (runEndProfile sampleGameOverState sampleProfile).gamesPlayed = 2 ∧
    (runEndProfile sampleGameOverState sampleProfile).totalCoins = 14 := by
  have h : sampleGameOverState.lives ≤ 1 := by norm_num [sampleGameOverState]
  have hthm := run_end_mutates_profile_twice sampleGameOverState sampleProfile h
  refine ⟨h, ?_, ?_⟩
  · rw [hthm.1]; rfl
  · rw [hthm.2.1]
    decide

/-- C7: a ship-upgrade purchase with the upgrade missing, already at max
level, or costing more (`cost * (currentLevel + 1)`) than the banked
coins returns the profile completely unchanged — a silent no-op with no
partial mutation; an affordable purchase below max level deducts
exactly the cost and raises the current level by exactly one of exactly
the upgrades carrying that id (every other upgrade and every other
profile field is untouched); and on a profile whose upgrade ids are
distinct the invariant `currentLevel ≤ maxLevel` is preserved. -/
theorem purchaseUpgrade_spec (upgradeId : String) (p : PlayerProgress) :
    (p.shipUpgrades.find? (fun w => w.id == upgradeId) = none →
      purchaseUpgrade upgradeId p = p) ∧
    (∀ u, p.shipUpgrades.find? (fun w => w.id == upgradeId) = some u →
      (u.maxLevel ≤ u.currentLevel → purchaseUpgrade upgradeId p = p) ∧
      (u.currentLevel < u.maxLevel →
        p.totalCoins < u.cost * (u.currentLevel + 1) →
        purchaseUpgrade upgradeId p = p) ∧
      (u.currentLevel < u.maxLevel →
        u.cost * (u.currentLevel + 1) ≤ p.totalCoins →
        (purchaseUpgrade upgradeId p).totalCoins =
          p.totalCoins - u.cost * (u.currentLevel + 1) ∧
        List.Forall₂ (fun v' v =>
            (v.id ≠ upgradeId ∧ v' = v) ∨
            (v.id = upgradeId ∧ v' = { v with currentLevel := v.currentLevel + 1 }))
          (purchaseUpgrade upgradeId p).shipUpgrades p.shipUpgrades ∧
        (purchaseUpgrade upgradeId p).gamesPlayed = p.gamesPlayed ∧
        (purchaseUpgrade upgradeId p).bestScore = p.bestScore ∧
        (purchaseUpgrade upgradeId p).dailyChallenges = p.dailyChallenges ∧
        (purchaseUpgrade upgradeId p).pirateOutfits = p.pirateOutfits ∧
        (purchaseUpgrade upgradeId p).totalSurvivalTime = p.totalSurvivalTime ∧
        (purchaseUpgrade upgradeId p).totalEnemiesDefeated = p.totalEnemiesDefeated)) ∧
    ((p.shipUpgrades.map ShipUpgrade.id).Nodup →
      (∀ u ∈ p.shipUpgrades, u.currentLevel ≤ u.maxLevel) →
      ∀ u ∈ (purchaseUpgrade upgradeId p).shipUpgrades,
        u.currentLevel ≤ u.maxLevel) := by
  refine ⟨fun hnone => ?_, fun u hfind => ?_, fun hnodup hinv => ?_⟩
  · unfold purchaseUpgrade
    rw [hnone]
  · have hsucc : u.currentLevel < u.maxLevel →
        u.cost * (u.currentLevel + 1) ≤ p.totalCoins →
        purchaseUpgrade upgradeId p =
          { p with
            totalCoins := p.totalCoins - u.cost * (u.currentLevel + 1),
            shipUpgrades := p.shipUpgrades.map (fun w =>
              if w.id == upgradeId then { w with currentLevel := w.currentLevel + 1 }
              else w) } := by
      intro hlt hcost
      simp only [purchaseUpgrade, hfind]
      rw [if_neg (not_le.mpr hlt), if_neg (not_lt.mpr hcost)]
    refine ⟨fun hmax => ?_, fun hlt hcost => ?_, fun hlt hcost => ?_⟩
    · simp only [purchaseUpgrade, hfind]
      rw [if_pos hmax]
    · simp only [purchaseUpgrade, hfind]
      rw [if_neg (not_le.mpr hlt), if_pos hcost]
    · rw [hsucc hlt hcost]
      refine ⟨rfl, ?_, rfl, rfl, rfl, rfl, rfl, rfl⟩
      rw [List.forall₂_map_left_iff, List.forall₂_same]
      intro v _
      by_cases hid : v.id = upgradeId
      · right
        exact ⟨hid, by simp [hid]⟩
      · left
        refine ⟨hid, ?_⟩
        simp [hid]
  · intro v hv
    unfold purchaseUpgrade at hv
    cases hfind : p.shipUpgrades.find? (fun w => w.id == upgradeId) with
    | none => rw [hfind] at hv; exact hinv v hv
    | some u =>
      rw [hfind] at hv
      simp only [] at hv
      by_cases hmax : u.maxLevel ≤ u.currentLevel
      · rw [if_pos hmax] at hv; exact hinv v hv
      · rw [if_neg hmax] at hv
        by_cases hcost : p.totalCoins < u.cost * (u.currentLevel + 1)
        · rw [if_pos hcost] at hv; exact hinv v hv
        · rw [if_neg hcost] at hv
          simp only [List.mem_map] at hv
          obtain ⟨w, hw, rfl⟩ := hv
          by_cases hid : w.id == upgradeId
          · have hwu : w = u := by
              have hu_mem := List.mem_of_find?_eq_some hfind
              have hu_id := List.find?_some hfind
              exact List.inj_on_of_nodup_map hnodup hw hu_mem
                (by rw [eq_of_beq hid, eq_of_beq hu_id])
            simp only [hid, if_true]
            subst hwu
            simpa using Nat.lt_of_not_le hmax
          · simp only [hid, if_false] at *
            simp only [Bool.not_eq_true] at hid
            rw [if_neg (by simp [hid])]
            exact hinv w hw

/-- A profile able to afford the first hull upgrade. -/
def sampleRichProfile : PlayerProgress :=
  { sampleProfile with totalCoins := 100 }

/-- C7 (witness): on the fresh profile (0 banked coins) purchasing the
hull upgrade (cost 50) is a no-op; with 100 banked coins the purchase
succeeds and leaves exactly 50 coins. -/
theorem purchaseUpgrade_spec_witness :
    purchaseUpgrade "hull" sampleProfile = sampleProfile ∧
    (purchaseUpgrade "hull" sampleRichProfile).totalCoins = 50 := by
  constructor
  · have h := ((purchaseUpgrade_spec "hull" sampleProfile).2.1
      { id := "hull", cost := 50, maxLevel := 3, currentLevel := 0,
        effectType := .startingLives, effectValue := 1 } rfl).2.1
    exact h (by norm_num) (by norm_num [sampleProfile])
  · have h := ((purchaseUpgrade_spec "hull" sampleRichProfile).2.1
      { id := "hull", cost := 50, maxLevel := 3, currentLevel := 0,
        effectType := .startingLives, effectValue := 1 } rfl).2.2
      (by norm_num) (by norm_num [sampleRichProfile, sampleProfile])
    rw [h.1]
    rfl

/-- The profile-mutating operations of the component, one constructor per
`setPlayerProgress` site of the source: `purchaseUpgrade`, the game
loop's game-over branch, `handleGameOver` (which issues the three
`updateChallengeProgress` calls with types "score", "coins" and
"survival"), `purchaseOutfit`, `selectOutfit`, and the daily challenge
reset of the loader (lines 381–385), whose random pick of templates is
the constructor's parameter — `generateDailyChallenges` builds every
fresh challenge with `progress: 0, completed: false`. -/
inductive ProfileOp where
  | purchase (upgradeId : String)
  | gameOverTick (coins : ℕ)
  | runEnd (score coins : ℕ)
  | buyOutfit (outfitId : String)
  | chooseOutfit (outfitId : String)
  | resetChallenges (date : String) (picks : List (String × ℕ × ℕ × ChallengeType))
deriving Repr

/-- Application of one profile operation. -/
def applyProfileOp (p : PlayerProgress) : ProfileOp → PlayerProgress
  | .purchase upgradeId => purchaseUpgrade upgradeId p
  | .gameOverTick coins => gameLoopGameOverProfile coins p
  | .runEnd score coins => handleGameOver score coins p
  | .buyOutfit outfitId => purchaseOutfit outfitId p
  | .chooseOutfit outfitId => selectOutfit outfitId p
  | .resetChallenges date picks =>
    { p with
      lastChallengeReset := date,
      dailyChallenges := picks.map (fun q =>
        { id := q.1, target := q.2.1, progress := 0, reward := q.2.2.1,
          completed := false, ctype := q.2.2.2 }) }

/-- Every challenge of type "enemies" is still untouched: progress 0 and
not completed. -/
def EnemiesUntouched (p : PlayerProgress) : Prop :=
  ∀ c ∈ p.dailyChallenges, c.ctype = ChallengeType.enemies →
    c.progress = 0 ∧ c.completed = false

/-- A purchase never touches the challenge list. -/
theorem purchaseUpgrade_dailyChallenges (upgradeId : String) (p : PlayerProgress) :
    (purchaseUpgrade upgradeId p).dailyChallenges = p.dailyChallenges := by
  unfold purchaseUpgrade
  cases p.shipUpgrades.find? (fun w => w.id == upgradeId) with
  | none => rfl
  | some u =>
    by_cases h1 : u.maxLevel ≤ u.currentLevel
    · simp [h1]
    · simp only [h1, if_false]
      split_ifs <;> rfl

/-- A purchase never touches the enemies counter. -/
theorem purchaseUpgrade_totalEnemiesDefeated (upgradeId : String) (p : PlayerProgress) :
    (purchaseUpgrade upgradeId p).totalEnemiesDefeated = p.totalEnemiesDefeated := by
  unfold purchaseUpgrade
  cases p.shipUpgrades.find? (fun w => w.id == upgradeId) with
  | none => rfl
  | some u =>
    by_cases h1 : u.maxLevel ≤ u.currentLevel
    · simp [h1]
    · simp only [h1, if_false]
      split_ifs <;> rfl

/-- An outfit purchase never touches the challenge list. -/
theorem purchaseOutfit_dailyChallenges (outfitId : String) (p : PlayerProgress) :
    (purchaseOutfit outfitId p).dailyChallenges = p.dailyChallenges := by
  unfold purchaseOutfit
  cases p.pirateOutfits.find? (fun o => o.id == outfitId) with
  | none => rfl
  | some o =>
    simp only []
    split_ifs <;> rfl

/-- An outfit purchase never touches the enemies counter. -/
theorem purchaseOutfit_totalEnemiesDefeated (outfitId : String) (p : PlayerProgress) :
    (purchaseOutfit outfitId p).totalEnemiesDefeated = p.totalEnemiesDefeated := by
  unfold purchaseOutfit
  cases p.pirateOutfits.find? (fun o => o.id == outfitId) with
  | none => rfl
  | some o =>
    simp only []
    split_ifs <;> rfl

/-- A challenge-progress update of a type other than "enemies" leaves an
enemies challenge record unchanged: the per-record updater preserves the
type, and fires only on records of the given type. -/
theorem updateChallengeProgress_enemies (t : ChallengeType) (a : ℕ)
    (ht : t ≠ ChallengeType.enemies) (p : PlayerProgress)
    (h : EnemiesUntouched p) : EnemiesUntouched (updateChallengeProgress t a p) := by
  intro c' hc' henemies
  unfold updateChallengeProgress at hc'
  simp only [List.mem_map] at hc'
  obtain ⟨c, hc, rfl⟩ := hc'
  by_cases hct : c.ctype = t ∧ c.completed = false
  · rw [if_pos hct] at henemies
    have hctype : c.ctype = ChallengeType.enemies := by
      by_cases htar : c.target ≤ c.progress + a
      · rw [if_pos htar] at henemies; exact henemies
      · rw [if_neg htar] at henemies; exact henemies
    exact absurd (hct.1.symm.trans hctype) ht
  · rw [if_neg hct] at henemies ⊢
    exact h c hc henemies

/-- One profile operation preserves the enemies invariant and the enemies
counter. -/
theorem applyProfileOp_enemies (p : PlayerProgress) (op : ProfileOp)
    (h : EnemiesUntouched p) :
    EnemiesUntouched (applyProfileOp p op) ∧
    (applyProfileOp p op).totalEnemiesDefeated = p.totalEnemiesDefeated := by
  cases op with
  | purchase upgradeId =>
    simp only [applyProfileOp]
    refine ⟨?_, purchaseUpgrade_totalEnemiesDefeated upgradeId p⟩
    intro c hc
    rw [purchaseUpgrade_dailyChallenges] at hc
    exact h c hc
  | gameOverTick coins =>
    simp only [applyProfileOp]
    exact ⟨fun c hc => h c hc, rfl⟩
  | runEnd score coins =>
    simp only [applyProfileOp]
    constructor
    · intro c hc henemies
      have hinner : EnemiesUntouched
          (updateChallengeProgress .survival (score / 10)
            (updateChallengeProgress .coins coins
              (updateChallengeProgress .score score p))) := by
        refine updateChallengeProgress_enemies _ _ (by simp) _ ?_
        refine updateChallengeProgress_enemies _ _ (by simp) _ ?_
        exact updateChallengeProgress_enemies _ _ (by simp) _ h
      exact hinner c hc henemies
    · simp [handleGameOver]
  | buyOutfit outfitId =>
    simp only [applyProfileOp]
    refine ⟨?_, purchaseOutfit_totalEnemiesDefeated outfitId p⟩
    intro c hc
    rw [purchaseOutfit_dailyChallenges] at hc
    exact h c hc
  | chooseOutfit outfitId =>
    simp only [applyProfileOp]
    exact ⟨fun c hc => h c hc, rfl⟩
  | resetChallenges date picks =>
    constructor
    · intro c hc _
      simp only [applyProfileOp, List.mem_map] at hc
      obtain ⟨q, _, rfl⟩ := hc
      exact ⟨rfl, rfl⟩
    · rfl

/-- C9: over every sequence of profile operations the source can issue,
an "enemies" daily challenge never advances — it keeps progress 0 and
stays uncompleted — because challenge progress is only ever updated
with the types "score", "coins" and "survival"; the cumulative
`totalEnemiesDefeated` counter is never changed by any operation; and
the run-end reward filter can never select an enemies challenge, so its
reward is never granted. -/
theorem enemies_challenge_never_advances (ops : List ProfileOp) (p : PlayerProgress)
    (h : EnemiesUntouched p) :
    EnemiesUntouched (ops.foldl applyProfileOp p) ∧
    (ops.foldl applyProfileOp p).totalEnemiesDefeated = p.totalEnemiesDefeated ∧
    (∀ (score coins : ℕ) (c : DailyChallenge),
      c ∈ completedChallenges p score coins → c.ctype ≠ ChallengeType.enemies) := by
  have hfilter : ∀ (q : PlayerProgress) (score coins : ℕ) (c : DailyChallenge),
      c ∈ completedChallenges q score coins → c.ctype ≠ ChallengeType.enemies := by
    intro q score coins c hc
    unfold completedChallenges at hc
    have hcond := List.of_mem_filter hc
    intro henemies
    simp [henemies] at hcond
  have hfold : ∀ (l : List ProfileOp) (q : PlayerProgress), EnemiesUntouched q →
      EnemiesUntouched (l.foldl applyProfileOp q) ∧
      (l.foldl applyProfileOp q).totalEnemiesDefeated = q.totalEnemiesDefeated := by
    intro l
    induction l with
    | nil => exact fun q hq => ⟨hq, rfl⟩
    | cons hd tl ih =>
      intro q hq
      have hstep := applyProfileOp_enemies q hd hq
      have hrest := ih (applyProfileOp q hd) hstep.1
      exact ⟨hrest.1, hrest.2.trans hstep.2⟩
  exact ⟨(hfold ops p h).1, (hfold ops p h).2, hfilter p⟩

/-- C9 (witness): on the fresh profile, which carries an incomplete
enemies challenge, a run of purchases, game overs, outfit operations
and a daily reset leaves every enemies challenge at progress 0 and the
enemies counter at 0. -/
theorem enemies_challenge_never_advances_witness :
    EnemiesUntouched sampleProfile ∧
    ([ProfileOp.purchase "hull", ProfileOp.gameOverTick 7,
      ProfileOp.runEnd 100 7, ProfileOp.buyOutfit "fancy",
      ProfileOp.chooseOutfit "fancy",
      ProfileOp.resetChallenges "Tue Jan 02 2024"
        [("enemies-10", 10, 30, ChallengeType.enemies)]].foldl
        applyProfileOp sampleProfile).totalEnemiesDefeated = 0 := by
  have hinv : EnemiesUntouched sampleProfile := by
    intro c hc
    fin_cases hc <;> simp [sampleProfile]
  have hthm := enemies_challenge_never_advances
    [ProfileOp.purchase "hull", ProfileOp.gameOverTick 7,
     ProfileOp.runEnd 100 7, ProfileOp.buyOutfit "fancy",
     ProfileOp.chooseOutfit "fancy",
     ProfileOp.resetChallenges "Tue Jan 02 2024"
       [("enemies-10", 10, 30, ChallengeType.enemies)]] sampleProfile hinv
  exact ⟨hinv, hthm.2.1.trans rfl⟩

end PirateGame
